import Mathlib

/-!
# Verification development for the novrun FaaS control plane

Shallow embedding of the execution engine of the novrun repository
(`executor.js`, `database.js`, `utils.js`, and the subprocess-based
executor variant, plus the `/run/:id` response-capture handler of
`main.js`), together with theorems settling the behavioural claims
about admission control, quota accounting, sandbox lifecycle,
response capture and output truncation.

Modelling conventions:
* JavaScript strings are Lean `String`s (lists of characters); numeric
  quantities (`currentInstanceCount`, quota counters, elapsed
  milliseconds) are `Int`, matching JS numbers / SQL INTEGER on the
  integral values the engine manipulates.
* JSON values are modelled by the inductive `Json`; JSON numbers are
  modelled as integers, which covers every value the engine's own code
  paths construct or inspect (HTTP status codes, quota counters).
* Database and file-system primitives are total functions on an
  explicit state; the sandbox child's behaviour is an oracle
  parameter (`SandboxOutcome`).
-/

namespace Novrun

/-! ## JSON values

Model of the JSON data manipulated by `JSON.parse` / `JSON.stringify`
in the engine.  Numbers are integers (see header). -/

inductive Json where
  | null : Json
  | bool : Bool → Json
  | num : Int → Json
  | str : String → Json
  | arr : List Json → Json
  | obj : List (String × Json) → Json
deriving Repr

/-- JavaScript truthiness of a JSON value (`null`, `false`, `0` and the
empty string are falsy; arrays and objects are truthy). -/
def jsTruthy : Json → Bool
  | .null => false
  | .bool b => b
  | .num n => n != 0
  | .str s => s != ""
  | .arr _ => true
  | .obj _ => true

/-- Property access `v.k` as JavaScript sees a parsed JSON value: only
objects have fields; a duplicate key keeps the last occurrence, as in
`JSON.parse`.  Absent field / non-object access yields `none`
(JavaScript `undefined`). -/
def jsGetField : Json → String → Option Json
  | .obj fs, k => ((fs.reverse).find? (fun p => p.1 == k)).map (fun p => p.2)
  | _, _ => none

/-! ## A JSON parser (fuel-based recursive descent)

Models `JSON.parse` on the fragment the engine exercises: `null`,
booleans, integer numerals, strings with the common escapes, arrays
and objects.  Inputs outside this fragment (fractional numbers,
`\uXXXX` escapes) make the parser fail; every concrete payload
analysed below lies inside the fragment, and the general theorems
quantify over already-parsed values. -/

/-- Skip JSON insignificant whitespace. -/
def skipWs : List Char → List Char
  | [] => []
  | c :: cs =>
    if c == ' ' || c == '\t' || c == '\n' || c == '\r' then skipWs cs else c :: cs

/-- Decode one character escape inside a JSON string literal. -/
def escapedChar (e : Char) : Option Char :=
  if e == '"' then some '"'
  else if e == '\\' then some '\\'
  else if e == '/' then some '/'
  else if e == 'n' then some '\n'
  else if e == 't' then some '\t'
  else if e == 'r' then some '\r'
  else if e == 'b' then some (Char.ofNat 8)
  else if e == 'f' then some (Char.ofNat 12)
  else none

/-- Parse the body of a JSON string literal (the opening quote already
consumed), returning the decoded characters and the rest of the
input. -/
def parseStringBody : List Char → Option (List Char × List Char)
  | [] => none
  | '"' :: cs => some ([], cs)
  | '\\' :: [] => none
  | '\\' :: e :: cs =>
    match escapedChar e with
    | none => none
    | some ch => (parseStringBody cs).map (fun p => (ch :: p.1, p.2))
  | c :: cs => (parseStringBody cs).map (fun p => (c :: p.1, p.2))

/-- Split a maximal run of decimal digits off the front of the input. -/
def takeDigits : List Char → List Char × List Char
  | [] => ([], [])
  | c :: cs =>
    if c.isDigit then
      let p := takeDigits cs
      (c :: p.1, p.2)
    else ([], c :: cs)

/-- Decimal value of a digit run. -/
def digitsToNat (ds : List Char) : Nat :=
  ds.foldl (fun a c => a * 10 + (c.toNat - 48)) 0

mutual

/-- Parse one JSON value.  The fuel argument bounds the recursion
depth; `parseJson` supplies enough fuel for any input. -/
def parseVal : Nat → List Char → Option (Json × List Char)
  | 0, _ => none
  | fuel + 1, cs =>
    match skipWs cs with
    | 'n' :: 'u' :: 'l' :: 'l' :: rest => some (.null, rest)
    | 't' :: 'r' :: 'u' :: 'e' :: rest => some (.bool true, rest)
    | 'f' :: 'a' :: 'l' :: 's' :: 'e' :: rest => some (.bool false, rest)
    | '"' :: rest => (parseStringBody rest).map (fun p => (.str (String.mk p.1), p.2))
    | '-' :: rest =>
      (match takeDigits rest with
       | ([], _) => none
       | (ds, rest2) => some (.num (-(digitsToNat ds : Int)), rest2))
    | '[' :: rest =>
      (match skipWs rest with
       | ']' :: rest2 => some (.arr [], rest2)
       | cs2 => (parseItems fuel cs2).map (fun p => (.arr p.1, p.2)))
    | '\x7b' :: rest =>
      (match skipWs rest with
       | '\x7d' :: rest2 => some (.obj [], rest2)
       | cs2 => (parseMembers fuel cs2).map (fun p => (.obj p.1, p.2)))
    | c :: rest =>
      if c.isDigit then
        (match takeDigits (c :: rest) with
         | (ds, rest2) => some (.num (digitsToNat ds : Int), rest2))
      else none
    | [] => none

/-- Parse the comma-separated items of a non-empty array, up to and
including the closing bracket. -/
def parseItems : Nat → List Char → Option (List Json × List Char)
  | 0, _ => none
  | fuel + 1, cs =>
    match parseVal fuel cs with
    | none => none
    | some (v, rest) =>
      match skipWs rest with
      | ',' :: rest2 => (parseItems fuel rest2).map (fun p => (v :: p.1, p.2))
      | ']' :: rest2 => some ([v], rest2)
      | _ => none

/-- Parse the comma-separated members of a non-empty object, up to and
including the closing brace. -/
def parseMembers : Nat → List Char → Option (List (String × Json) × List Char)
  | 0, _ => none
  | fuel + 1, cs =>
    match skipWs cs with
    | '"' :: rest =>
      (match parseStringBody rest with
       | none => none
       | some (key, rest2) =>
         match skipWs rest2 with
         | ':' :: rest3 =>
           (match parseVal fuel rest3 with
            | none => none
            | some (v, rest4) =>
              match skipWs rest4 with
              | ',' :: rest5 =>
                (parseMembers fuel rest5).map (fun p => ((String.mk key, v) :: p.1, p.2))
              | '\x7d' :: rest5 => some ([(String.mk key, v)], rest5)
              | _ => none)
         | _ => none)
    | _ => none

end

/-- `JSON.parse`: parse a whole string as a single JSON value, allowing
trailing whitespace only. -/
def parseJson (s : String) : Option Json :=
  match parseVal (2 * s.data.length + 4) s.data with
  | some (v, rest) => if skipWs rest = [] then some v else none
  | none => none

/-! ## A JSON serializer (`JSON.stringify`) -/

/-- Escape one character for a JSON string literal. -/
def escapeChar (c : Char) : List Char :=
  if c == '"' then ['\\', '"']
  else if c == '\\' then ['\\', '\\']
  else if c == '\n' then ['\\', 'n']
  else if c == '\t' then ['\\', 't']
  else if c == '\r' then ['\\', 'r']
  else [c]

/-- Escape a string for inclusion in JSON output. -/
def escapeString (s : String) : String :=
  String.mk (s.data.foldr (fun c acc => escapeChar c ++ acc) [])

mutual

/-- `JSON.stringify` on the modelled JSON fragment. -/
def jsonStringify : Json → String
  | .null => "null"
  | .bool true => "true"
  | .bool false => "false"
  | .num n => toString n
  | .str s => "\"" ++ escapeString s ++ "\""
  | .arr xs => "[" ++ stringifyItems xs ++ "]"
  | .obj fs => "\x7b" ++ stringifyMembers fs ++ "\x7d"

/-- Comma-separated serialization of array items. -/
def stringifyItems : List Json → String
  | [] => ""
  | [x] => jsonStringify x
  | x :: xs => jsonStringify x ++ "," ++ stringifyItems xs

/-- Comma-separated serialization of object members. -/
def stringifyMembers : List (String × Json) → String
  | [] => ""
  | [(k, v)] => "\"" ++ escapeString k ++ "\":" ++ jsonStringify v
  | (k, v) :: fs =>
    "\"" ++ escapeString k ++ "\":" ++ jsonStringify v ++ "," ++ stringifyMembers fs

end

/-! ## utils.js -/

/-- The marker `sanitizeOutput` appends when it truncates
(`utils.js:97`). -/
def TRUNCATION_MARKER : String := "\n... (output truncated)"

/-- `sanitizeOutput` (`utils.js:93-100`): a string longer than
1,000,000 characters is cut to its first 1,000,000 characters with the
truncation marker appended; anything else (including `null`, modelled
as `none`, and the falsy empty string) is returned unchanged. -/
def sanitizeOutput (output : Option String) : Option String :=
  match output with
  | none => none
  | some s =>
    if s.length > 1000000 then
      some (String.mk (s.data.take 1000000) ++ TRUNCATION_MARKER)
    else some s

/-! ## database.js: quota rows and quota updates -/

/-- One row of the `quotas` table (`database.js:80-89`). -/
structure QuotaRow where
  cpu_time_used_ms : Int
  concurrent_count : Int
  last_reset_at : Int
deriving DecidableEq, Repr

/-- `updateQuota(userId, cpuTimeUsedMs, concurrentCount)`
(`database.js:254-266`): on the (unique) row of `userId`, add
`cpuTimeUsedMs` to `cpu_time_used_ms` and overwrite
`concurrent_count` with the given absolute value; rows of other users
and the `last_reset_at` column are untouched.  The SQL UPDATE is a
no-op when no row matches. -/
def updateQuota (qs : String → Option QuotaRow) (userId : String)
    (cpuTimeUsedMs concurrentCount : Int) : String → Option QuotaRow :=
  fun u =>
    if u = userId then
      (qs u).map (fun q =>
        { q with
          cpu_time_used_ms := q.cpu_time_used_ms + cpuTimeUsedMs,
          concurrent_count := concurrentCount })
    else qs u

/-! ## The execution engine (subprocess-based `executeFunction`)

Embedding of the subprocess executor (the second half of the
repository's `auth.js` file, lines 73-231; the Worker-based variant in
`executor.js` shares the admission, quota and logging logic verbatim
and differs only in sandbox mechanics).  The sandbox child's behaviour
is the oracle `SandboxOutcome`; `removeFails` says whether the
`Deno.remove` in the `finally` block throws (the code swallows such
failures). -/

/-- Engine constants (`executor.js:4-7` / `auth.js:76-79`). -/
def MAX_EXECUTION_TIME_MS : Int := 15000

/-- 2 hours, in milliseconds. -/
def MAX_CPU_TIME_MS : Int := 2 * 60 * 60 * 1000

/-- Per-user concurrency ceiling. -/
def MAX_CONCURRENT_EXECUTIONS : Int := 10

/-- Machine-wide instance ceiling. -/
def MAX_INSTANCES_PER_MACHINE : Int := 50

/-- One row of the `executions` table as written by `logExecution`
(`database.js:216-227`). -/
structure LogRow where
  function_id : String
  user_id : String
  status : String
  output : Option String
  error : Option String
  execution_time_ms : Int
deriving DecidableEq, Repr

/-- The structured result `executeFunction` returns to its caller. -/
structure ExecResult where
  status : String
  output : Option String
  error : Option String
  executionTimeMs : Int
deriving DecidableEq, Repr

/-- The mutable state an invocation reads and writes: the
process-local machine instance counter, the `quotas` table, and the
append-only `executions` log. -/
structure EngineState where
  currentInstanceCount : Int
  quotas : String → Option QuotaRow
  executions : List LogRow

/-- Observable side effects of one invocation that live outside
`EngineState`: the ephemeral program text written to the scratch file,
whether the `finally` block invoked the scratch-file removal, whether
the file is actually gone afterwards, whether a kill signal was ever
sent to the sandbox child, and whether a log row was written. -/
structure ExecEffects where
  programText : Option String
  tempRemoveInvoked : Bool
  tempFileDeleted : Bool
  sandboxKilled : Bool
  logWritten : Bool
deriving DecidableEq, Repr

/-- How the sandbox child behaved: natural completion (exit success
flag, captured stdout/stderr, wall-clock elapsed), expiry of the
15000 ms deadline, or a spawn/infrastructure failure raising an
exception with the given message. -/
inductive SandboxOutcome where
  | completed : Bool → String → String → Int → SandboxOutcome
  | timedOut : SandboxOutcome
  | spawnFailed : String → SandboxOutcome
deriving DecidableEq, Repr

/-- The ephemeral program materialized into the scratch file
(`auth.js:128-131`): a template literal consisting of a newline, the
declaration binding `input` to the serialized input, a newline, the
user's code verbatim, and the closing indentation of the template. -/
def wrappedCode (code : String) (inputData : Json) : String :=
  "\nconst input = " ++ jsonStringify inputData ++ ";\n" ++ code ++ "\n      "

/-- `executeFunction(functionId, userId, code, inputData)`
(`auth.js:83-223`):

1. reject if `currentInstanceCount ≥ MAX_INSTANCES_PER_MACHINE`;
2. read the quota row; reject if absent;
3. reject if `concurrent_count ≥ MAX_CONCURRENT_EXECUTIONS`;
4. reject if `cpu_time_used_ms ≥ MAX_CPU_TIME_MS`;
5. otherwise increment the machine counter, write the quota row with
   `concurrent_count := snapshot + 1`, materialize the scratch file
   and run the sandbox:
   * deadline expiry or a spawn failure raises; the inner `finally`
     decrements the counter and removes the scratch file, and the
     outer catch returns an error result with `executionTimeMs = 0`
     (no kill signal is ever sent to the child);
   * on natural completion, if `snapshot.cpu_time_used_ms + elapsed`
     exceeds the CPU budget the function returns early (no quota
     settlement, no log row); otherwise it settles the quota row with
     `cpu_time_used_ms += elapsed`, `concurrent_count := snapshot - 1`,
     appends a log row and returns the result. -/
def executeFunction (st : EngineState) (functionId userId code : String)
    (inputData : Json) (outcome : SandboxOutcome) (removeFails : Bool) :
    EngineState × ExecResult × ExecEffects :=
  if st.currentInstanceCount ≥ MAX_INSTANCES_PER_MACHINE then
    (st, ⟨"error", none, some "Machine at capacity: maximum 50 concurrent instances reached", 0⟩,
     ⟨none, false, false, false, false⟩)
  else
    match st.quotas userId with
    | none =>
      (st, ⟨"error", none, some "User quota not initialized", 0⟩,
       ⟨none, false, false, false, false⟩)
    | some quota =>
      if quota.concurrent_count ≥ MAX_CONCURRENT_EXECUTIONS then
        (st, ⟨"error", none, some "User concurrent execution limit (10) reached", 0⟩,
         ⟨none, false, false, false, false⟩)
      else if quota.cpu_time_used_ms ≥ MAX_CPU_TIME_MS then
        (st, ⟨"error", none, some "User CPU time quota exceeded (2 hour limit)", 0⟩,
         ⟨none, false, false, false, false⟩)
      else
        let afterReserve : EngineState :=
          { st with
            currentInstanceCount := st.currentInstanceCount + 1,
            quotas := updateQuota st.quotas userId 0 (quota.concurrent_count + 1) }
        let text := wrappedCode code inputData
        match outcome with
        | .timedOut =>
          ({ afterReserve with currentInstanceCount := afterReserve.currentInstanceCount - 1 },
           ⟨"error", none, some "Execution timeout: exceeded 15 second limit", 0⟩,
           ⟨some text, true, !removeFails, false, false⟩)
        | .spawnFailed msg =>
          ({ afterReserve with currentInstanceCount := afterReserve.currentInstanceCount - 1 },
           ⟨"error", none, some msg, 0⟩,
           ⟨some text, true, !removeFails, false, false⟩)
        | .completed success stdoutText stderrText elapsed =>
          if quota.cpu_time_used_ms + elapsed > MAX_CPU_TIME_MS then
            ({ afterReserve with currentInstanceCount := afterReserve.currentInstanceCount - 1 },
             ⟨"error", none, some "Execution would exceed CPU time quota", elapsed⟩,
             ⟨some text, true, !removeFails, false, false⟩)
          else
            let statusField : String := if success then "success" else "error"
            let outField : Option String := if success then some stdoutText else none
            let errField : Option String :=
              if !success || stderrText != "" then some stderrText else none
            ({ currentInstanceCount := afterReserve.currentInstanceCount - 1,
               quotas := updateQuota afterReserve.quotas userId elapsed
                 (quota.concurrent_count - 1),
               executions := afterReserve.executions ++
                 [⟨functionId, userId, statusField, outField, errField, elapsed⟩] },
             ⟨statusField, outField, errField, elapsed⟩,
             ⟨some text, true, !removeFails, false, true⟩)

/-! ## Response capture (`main.js` `/run/:id` handler)

Embedding of the capture step of the public execution route
(`main.js`, GET `/run/:id`, the envelope-parsing block): on a
successful result with truthy output, try to parse stdout as JSON; if
the parsed value is truthy and its `status` field is a number, answer
in envelope mode (custom headers from the `headers` object, the `body`
string given one further JSON parse, kept as a string on failure);
otherwise answer in raw mode with the sanitized output. -/

/-- The two capture modes: a structured HTTP envelope, or the default
raw response carrying the (sanitized) execution result. -/
inductive CaptureResult where
  | envelope : Int → List (String × Json) → Json → CaptureResult
  | raw : ExecResult → CaptureResult
deriving Repr

/-- Raw-mode response: the result with `output` passed through
`sanitizeOutput`. -/
def rawOf (r : ExecResult) : CaptureResult :=
  .raw { r with output := sanitizeOutput r.output }

/-- The custom headers taken from the parsed envelope: the entries of
the `headers` field when it is a truthy value of `typeof 'object'`
(an object's members; an array's index-keyed entries, as
`Object.entries` yields); nothing otherwise. -/
def envHeaders (v : Json) : List (String × Json) :=
  match jsGetField v "headers" with
  | some (.obj fs) => fs
  | some (.arr xs) => (xs.enum).map (fun p => (toString p.1, p.2))
  | _ => []

/-- The envelope body: the `body` field, with exactly one further
JSON parse attempted when it is a string, kept as the string on
failure.  An absent field is JavaScript `undefined`, modelled as
`null`. -/
def envBody (v : Json) : Json :=
  match jsGetField v "body" with
  | some (.str s) =>
    (match parseJson s with
     | some b => b
     | none => .str s)
  | some b => b
  | none => .null

/-- The envelope decision on an already-parsed stdout value: envelope
mode exactly when the value is truthy and its `status` field is a
number (the code checks nothing else about the shape or range). -/
def captureOfJson (v : Json) (r : ExecResult) : CaptureResult :=
  if jsTruthy v then
    match jsGetField v "status" with
    | some (.num n) => .envelope n (envHeaders v) (envBody v)
    | _ => rawOf r
  else rawOf r

/-- The whole capture step on an execution result. -/
def captureRun (r : ExecResult) : CaptureResult :=
  match r.output with
  | some out =>
    if r.status = "success" ∧ out ≠ "" then
      match parseJson out with
      | some v => captureOfJson v r
      | none => rawOf r
    else rawOf r
  | none => rawOf r

/-- Is the capture answer an envelope? -/
def CaptureResult.isEnvelope : CaptureResult → Bool
  | .envelope _ _ _ => true
  | .raw _ => false

/-! ## Interleaving model of concurrent invocations

`executeFunction` suspends at each `await`; the JavaScript event loop
runs the code between two suspension points atomically.  The following
small-step system makes those segments explicit for the admission and
settlement paths of a natural, successful completion (the path
relevant to the capacity claims): one step per resume segment, with
the shared machine counter and quota table threaded through.  A
schedule (a list of invocation indices) determines one concrete
interleaved trace. -/

/-- Where an in-flight invocation stands, segment by segment:

* `entry`: about to run the synchronous machine-capacity check;
* `pendingQuota`: passed the capacity check, suspended at
  `await getQuota`;
* `pendingWrite`: quota checks passed and the machine counter already
  incremented (same synchronous segment), suspended at the admission
  `await updateQuota`; the field holds the quota snapshot;
* `inSandbox`: admission writes done, waiting for the child;
* `pendingSettle`: child completed and the post-admission CPU check
  passed, suspended at the settlement `await updateQuota`;
* `pendingLog`: settlement written, suspended at `await logExecution`;
* `finished`: the invocation returned the recorded result. -/
inductive InvPhase where
  | entry : InvPhase
  | pendingQuota : InvPhase
  | pendingWrite : QuotaRow → InvPhase
  | inSandbox : QuotaRow → InvPhase
  | pendingSettle : QuotaRow → InvPhase
  | pendingLog : QuotaRow → InvPhase
  | finished : ExecResult → InvPhase
deriving DecidableEq, Repr

/-- One in-flight invocation: its caller, the wall-clock time its
sandbox will take (the oracle; the child is assumed to complete
successfully), and its current phase. -/
structure Inv where
  userId : String
  sandboxElapsed : Int
  phase : InvPhase
deriving DecidableEq, Repr

/-- The state shared between invocations: the process-local machine
counter and the quota table. -/
structure Shared where
  count : Int
  quotas : String → Option QuotaRow

/-- Execute the next resume segment of one invocation. -/
def stepInv (sh : Shared) (inv : Inv) : Shared × Inv :=
  match inv.phase with
  | .entry =>
    if sh.count ≥ MAX_INSTANCES_PER_MACHINE then
      (sh, { inv with phase := (.finished ⟨"error", none, some "Machine at capacity: maximum 50 concurrent instances reached", 0⟩ : InvPhase) })
    else (sh, { inv with phase := .pendingQuota })
  | .pendingQuota =>
    match sh.quotas inv.userId with
    | none =>
      (sh, { inv with phase := (.finished ⟨"error", none, some "User quota not initialized", 0⟩ : InvPhase) })
    | some snap =>
      if snap.concurrent_count ≥ MAX_CONCURRENT_EXECUTIONS then
        (sh, { inv with phase := (.finished ⟨"error", none, some "User concurrent execution limit (10) reached", 0⟩ : InvPhase) })
      else if snap.cpu_time_used_ms ≥ MAX_CPU_TIME_MS then
        (sh, { inv with phase := (.finished ⟨"error", none, some "User CPU time quota exceeded (2 hour limit)", 0⟩ : InvPhase) })
      else
        ({ sh with count := sh.count + 1 }, { inv with phase := .pendingWrite snap })
  | .pendingWrite snap =>
    ({ sh with quotas := updateQuota sh.quotas inv.userId 0 (snap.concurrent_count + 1) },
     { inv with phase := .inSandbox snap })
  | .inSandbox snap =>
    if snap.cpu_time_used_ms + inv.sandboxElapsed > MAX_CPU_TIME_MS then
      ({ sh with count := sh.count - 1 },
       { inv with phase := (.finished ⟨"error", none, some "Execution would exceed CPU time quota", inv.sandboxElapsed⟩ : InvPhase) })
    else (sh, { inv with phase := .pendingSettle snap })
  | .pendingSettle snap =>
    ({ sh with quotas := updateQuota sh.quotas inv.userId inv.sandboxElapsed (snap.concurrent_count - 1) },
     { inv with phase := .pendingLog snap })
  | .pendingLog _ =>
    ({ sh with count := sh.count - 1 },
     { inv with phase := .finished ⟨"success", some "", none, inv.sandboxElapsed⟩ })
  | .finished _ => (sh, inv)

/-- Step the invocation at index `i` of the system (no-op for an
out-of-range index). -/
def stepAt (sys : Shared × List Inv) (i : Nat) : Shared × List Inv :=
  match sys.2[i]? with
  | none => sys
  | some inv =>
    let p := stepInv sys.1 inv
    (p.1, sys.2.set i p.2)

/-- Run the system along a schedule of invocation indices. -/
def runSched (sys : Shared × List Inv) (sched : List Nat) : Shared × List Inv :=
  sched.foldl stepAt sys

/-! ## Concrete fixtures used by the theorems below -/

/-- An engine state with an idle machine and a single quota row for
user `u1` with the given counters. -/
def singleUserState (cpu cc : Int) : EngineState :=
  ⟨0, fun u => if u = "u1" then some ⟨cpu, cc, 0⟩ else none, []⟩

/-- Quota table with one row, for the `updateQuota` witness. -/
def witQs : String → Option QuotaRow :=
  fun u => if u = "u1" then some ⟨5, 2, 7⟩ else none

/-- A 1,000,001-character output (more than the code's 1,000,000
threshold, but below one mebibyte). -/
def bigOutput : String := String.mk (List.replicate 1000001 'a')

/-- A successful result whose stdout is a JSON object with the
out-of-range status 7000 (and nothing else). -/
def statusJunkResult : ExecResult :=
  ⟨"success", some "\x7b\"status\":7000\x7d", none, 5⟩

/-- The spec's round-trip example: a successful result whose stdout is
`{"status":200,"headers":{"Content-Type":"application/json"},"body":"{\"x\":1}"}`. -/
def exampleEnvelopeResult : ExecResult :=
  ⟨"success",
   some "\x7b\"status\":200,\"headers\":\x7b\"Content-Type\":\"application/json\"\x7d,\"body\":\"\x7b\\\"x\\\":1\x7d\"\x7d",
   none, 10⟩

/-- What `parseJson` yields on the example stdout above. -/
def exampleParsedJson : Json :=
  .obj [("status", .num 200),
        ("headers", .obj [("Content-Type", .str "application/json")]),
        ("body", .str "\x7b\"x\":1\x7d")]

/-- Quota table for the interleaving scenario: fresh rows for the two
callers `ua` and `ub`. -/
def raceQuotas : String → Option QuotaRow :=
  fun u => if u = "ua" then some ⟨0, 0, 0⟩ else if u = "ub" then some ⟨0, 0, 0⟩ else none

/-- The interleaving scenario: machine counter already at 49
(one below the ceiling), two fresh invocations about to enter
`executeFunction`. -/
def raceInit : Shared × List Inv :=
  (⟨49, raceQuotas⟩, [⟨"ua", 100, .entry⟩, ⟨"ub", 100, .entry⟩])

/-- The interleaved schedule: both invocations run their synchronous
machine-capacity check (line 86) before either resumes from
`await getQuota` and reaches the increment (line 120). -/
def raceSched : List Nat := [0, 1, 0, 1]

/-- The system state after the interleaved schedule. -/
def raceFinal : Shared × List Inv := runSched raceInit raceSched

/-- C1 scenario: user `u1` with three in-flight executions on the
books, an admitted invocation whose sandbox completes successfully in
100 ms. -/
def c1Run : EngineState × ExecResult × ExecEffects :=
  executeFunction (singleUserState 0 3) "f1" "u1" "return new Response(\"ok\")" Json.null
    (.completed true "ok" "" 100) false

/-- C4 scenario: user `u1` has consumed `MAX_USER_CPU_MS - 1000` of
CPU budget; the sandbox completes in 2000 ms. -/
def c4Run : EngineState × ExecResult × ExecEffects :=
  executeFunction (singleUserState (MAX_CPU_TIME_MS - 1000) 0) "f1" "u1" "x" Json.null
    (.completed true "done" "" 2000) false

/-- C5 scenario: non-terminating user code, so the 15000 ms deadline
fires. -/
def c5Run : EngineState × ExecResult × ExecEffects :=
  executeFunction (singleUserState 0 0) "f1" "u1" "while (true) \x7b\x7d" Json.null
    .timedOut false

/-- C6 scenario: the child exits successfully but wrote to stderr. -/
def c6Run : EngineState × ExecResult × ExecEffects :=
  executeFunction (singleUserState 0 0) "f1" "u1" "x" Json.null
    (.completed true "out" "warn" 50) false

/-- An engine state whose machine counter sits at the ceiling. -/
def machineFullState : EngineState := ⟨50, fun _ => none, []⟩

/-! ## Theorems -/

/-! ### Branch equations for `executeFunction` -/

/-- With the machine counter at or above the ceiling,
`executeFunction` rejects before touching any state. -/
theorem executeFunction_machine_full {st : EngineState}
    {functionId userId code : String} {inputData : Json}
    {outcome : SandboxOutcome} {removeFails : Bool}
    (h : st.currentInstanceCount ≥ MAX_INSTANCES_PER_MACHINE) :
    executeFunction st functionId userId code inputData outcome removeFails =
      (st, ⟨"error", none, some "Machine at capacity: maximum 50 concurrent instances reached", 0⟩,
       ⟨none, false, false, false, false⟩) := by
  unfold executeFunction
  rw [if_pos h]

/-- With a free machine slot but no quota row, `executeFunction`
rejects before touching any state. -/
theorem executeFunction_quota_missing {st : EngineState}
    {functionId userId code : String} {inputData : Json}
    {outcome : SandboxOutcome} {removeFails : Bool}
    (h1 : st.currentInstanceCount < MAX_INSTANCES_PER_MACHINE)
    (h2 : st.quotas userId = none) :
    executeFunction st functionId userId code inputData outcome removeFails =
      (st, ⟨"error", none, some "User quota not initialized", 0⟩,
       ⟨none, false, false, false, false⟩) := by
  unfold executeFunction
  rw [if_neg (by omega : ¬ st.currentInstanceCount ≥ MAX_INSTANCES_PER_MACHINE), h2]

/-- With the user's concurrency ceiling reached, `executeFunction`
rejects before touching any state. -/
theorem executeFunction_concurrent_full {st : EngineState}
    {functionId userId code : String} {inputData : Json}
    {outcome : SandboxOutcome} {removeFails : Bool} {q : QuotaRow}
    (h1 : st.currentInstanceCount < MAX_INSTANCES_PER_MACHINE)
    (h2 : st.quotas userId = some q)
    (h3 : q.concurrent_count ≥ MAX_CONCURRENT_EXECUTIONS) :
    executeFunction st functionId userId code inputData outcome removeFails =
      (st, ⟨"error", none, some "User concurrent execution limit (10) reached", 0⟩,
       ⟨none, false, false, false, false⟩) := by
  unfold executeFunction
  rw [if_neg (by omega : ¬ st.currentInstanceCount ≥ MAX_INSTANCES_PER_MACHINE), h2]
  simp only [if_pos h3]

/-- With the user's cumulative CPU budget exhausted,
`executeFunction` rejects before touching any state. -/
theorem executeFunction_cpu_full {st : EngineState}
    {functionId userId code : String} {inputData : Json}
    {outcome : SandboxOutcome} {removeFails : Bool} {q : QuotaRow}
    (h1 : st.currentInstanceCount < MAX_INSTANCES_PER_MACHINE)
    (h2 : st.quotas userId = some q)
    (h3 : q.concurrent_count < MAX_CONCURRENT_EXECUTIONS)
    (h4 : q.cpu_time_used_ms ≥ MAX_CPU_TIME_MS) :
    executeFunction st functionId userId code inputData outcome removeFails =
      (st, ⟨"error", none, some "User CPU time quota exceeded (2 hour limit)", 0⟩,
       ⟨none, false, false, false, false⟩) := by
  unfold executeFunction
  rw [if_neg (by omega : ¬ st.currentInstanceCount ≥ MAX_INSTANCES_PER_MACHINE), h2]
  simp only [if_neg (by omega : ¬ q.concurrent_count ≥ MAX_CONCURRENT_EXECUTIONS), if_pos h4]

/-- Admitted invocation, deadline expiry: the timeout rejection
reaches the catch-all; the machine counter is restored by the
`finally`, but the quota row keeps its admission-incremented
`concurrent_count` and no log row is written. -/
theorem executeFunction_timeout_eq {st : EngineState}
    {functionId userId code : String} {inputData : Json} {removeFails : Bool} {q : QuotaRow}
    (h1 : st.currentInstanceCount < MAX_INSTANCES_PER_MACHINE)
    (h2 : st.quotas userId = some q)
    (h3 : q.concurrent_count < MAX_CONCURRENT_EXECUTIONS)
    (h4 : q.cpu_time_used_ms < MAX_CPU_TIME_MS) :
    executeFunction st functionId userId code inputData .timedOut removeFails =
      ({ currentInstanceCount := st.currentInstanceCount + 1 - 1,
         quotas := updateQuota st.quotas userId 0 (q.concurrent_count + 1),
         executions := st.executions },
       ⟨"error", none, some "Execution timeout: exceeded 15 second limit", 0⟩,
       ⟨some (wrappedCode code inputData), true, !removeFails, false, false⟩) := by
  unfold executeFunction
  rw [if_neg (by omega : ¬ st.currentInstanceCount ≥ MAX_INSTANCES_PER_MACHINE), h2]
  simp only [if_neg (by omega : ¬ q.concurrent_count ≥ MAX_CONCURRENT_EXECUTIONS),
    if_neg (by omega : ¬ q.cpu_time_used_ms ≥ MAX_CPU_TIME_MS)]

/-- Admitted invocation, spawn failure: same unwinding as the timeout,
with the exception's message surfaced. -/
theorem executeFunction_spawnfailed_eq {st : EngineState}
    {functionId userId code : String} {inputData : Json} {removeFails : Bool} {q : QuotaRow}
    {msg : String}
    (h1 : st.currentInstanceCount < MAX_INSTANCES_PER_MACHINE)
    (h2 : st.quotas userId = some q)
    (h3 : q.concurrent_count < MAX_CONCURRENT_EXECUTIONS)
    (h4 : q.cpu_time_used_ms < MAX_CPU_TIME_MS) :
    executeFunction st functionId userId code inputData (.spawnFailed msg) removeFails =
      ({ currentInstanceCount := st.currentInstanceCount + 1 - 1,
         quotas := updateQuota st.quotas userId 0 (q.concurrent_count + 1),
         executions := st.executions },
       ⟨"error", none, some msg, 0⟩,
       ⟨some (wrappedCode code inputData), true, !removeFails, false, false⟩) := by
  unfold executeFunction
  rw [if_neg (by omega : ¬ st.currentInstanceCount ≥ MAX_INSTANCES_PER_MACHINE), h2]
  simp only [if_neg (by omega : ¬ q.concurrent_count ≥ MAX_CONCURRENT_EXECUTIONS),
    if_neg (by omega : ¬ q.cpu_time_used_ms ≥ MAX_CPU_TIME_MS)]

/-- Admitted invocation, natural completion that trips the
post-admission CPU check: early return, no billing, no log row, the
quota row keeps its admission-incremented `concurrent_count`. -/
theorem executeFunction_overbudget_eq {st : EngineState}
    {functionId userId code : String} {inputData : Json} {removeFails : Bool} {q : QuotaRow}
    {success : Bool} {so se : String} {elapsed : Int}
    (h1 : st.currentInstanceCount < MAX_INSTANCES_PER_MACHINE)
    (h2 : st.quotas userId = some q)
    (h3 : q.concurrent_count < MAX_CONCURRENT_EXECUTIONS)
    (h4 : q.cpu_time_used_ms < MAX_CPU_TIME_MS)
    (h5 : q.cpu_time_used_ms + elapsed > MAX_CPU_TIME_MS) :
    executeFunction st functionId userId code inputData (.completed success so se elapsed) removeFails =
      ({ currentInstanceCount := st.currentInstanceCount + 1 - 1,
         quotas := updateQuota st.quotas userId 0 (q.concurrent_count + 1),
         executions := st.executions },
       ⟨"error", none, some "Execution would exceed CPU time quota", elapsed⟩,
       ⟨some (wrappedCode code inputData), true, !removeFails, false, false⟩) := by
  unfold executeFunction
  rw [if_neg (by omega : ¬ st.currentInstanceCount ≥ MAX_INSTANCES_PER_MACHINE), h2]
  simp only [if_neg (by omega : ¬ q.concurrent_count ≥ MAX_CONCURRENT_EXECUTIONS),
    if_neg (by omega : ¬ q.cpu_time_used_ms ≥ MAX_CPU_TIME_MS), if_pos h5]

/-- Admitted invocation, natural completion within budget: settlement
overwrites the row with `concurrent_count := snapshot - 1`, bills the
elapsed time, appends a log row and returns the marshalled result. -/
theorem executeFunction_settled_eq {st : EngineState}
    {functionId userId code : String} {inputData : Json} {removeFails : Bool} {q : QuotaRow}
    {success : Bool} {so se : String} {elapsed : Int}
    (h1 : st.currentInstanceCount < MAX_INSTANCES_PER_MACHINE)
    (h2 : st.quotas userId = some q)
    (h3 : q.concurrent_count < MAX_CONCURRENT_EXECUTIONS)
    (h4 : q.cpu_time_used_ms < MAX_CPU_TIME_MS)
    (h5 : q.cpu_time_used_ms + elapsed ≤ MAX_CPU_TIME_MS) :
    executeFunction st functionId userId code inputData (.completed success so se elapsed) removeFails =
      ({ currentInstanceCount := st.currentInstanceCount + 1 - 1,
         quotas := updateQuota (updateQuota st.quotas userId 0 (q.concurrent_count + 1))
           userId elapsed (q.concurrent_count - 1),
         executions := st.executions ++
           [⟨functionId, userId, (if success then "success" else "error"),
             (if success then some so else none),
             (if !success || se != "" then some se else none), elapsed⟩] },
       ⟨(if success then "success" else "error"),
        (if success then some so else none),
        (if !success || se != "" then some se else none), elapsed⟩,
       ⟨some (wrappedCode code inputData), true, !removeFails, false, true⟩) := by
  unfold executeFunction
  rw [if_neg (by omega : ¬ st.currentInstanceCount ≥ MAX_INSTANCES_PER_MACHINE), h2]
  simp only [if_neg (by omega : ¬ q.concurrent_count ≥ MAX_CONCURRENT_EXECUTIONS),
    if_neg (by omega : ¬ q.cpu_time_used_ms ≥ MAX_CPU_TIME_MS),
    if_neg (by omega : ¬ q.cpu_time_used_ms + elapsed > MAX_CPU_TIME_MS)]

/-- Claim C3. Every admission rejection (machine counter at or above 50,
quota row absent, `concurrent_count` at or above 10, or
`cpu_time_used_ms` at or above the CPU budget, checked in that order)
returns `status = "error"` with `executionTimeMs = 0` and the
per-kind stable message — exactly
`"Machine at capacity: maximum 50 concurrent instances reached"` for
machine capacity — writes no execution-log row, materializes nothing,
and leaves the whole engine state (in particular the caller's quota
row) unchanged. -/
theorem C3_admission_reject_shortcircuit (st : EngineState)
    (functionId userId code : String) (inputData : Json)
    (outcome : SandboxOutcome) (removeFails : Bool)
    (hrej : st.currentInstanceCount ≥ MAX_INSTANCES_PER_MACHINE
      ∨ st.quotas userId = none
      ∨ ∃ q, st.quotas userId = some q ∧
          (q.concurrent_count ≥ MAX_CONCURRENT_EXECUTIONS
           ∨ q.cpu_time_used_ms ≥ MAX_CPU_TIME_MS)) :
    (executeFunction st functionId userId code inputData outcome removeFails).2.1.status = "error"
    ∧ (executeFunction st functionId userId code inputData outcome removeFails).2.1.executionTimeMs = 0
    ∧ (executeFunction st functionId userId code inputData outcome removeFails).1 = st
    ∧ (executeFunction st functionId userId code inputData outcome removeFails).2.2.logWritten = false
    ∧ (executeFunction st functionId userId code inputData outcome removeFails).2.2.programText = none
    ∧ (st.currentInstanceCount ≥ MAX_INSTANCES_PER_MACHINE →
        (executeFunction st functionId userId code inputData outcome removeFails).2.1.error
          = some "Machine at capacity: maximum 50 concurrent instances reached")
    ∧ (st.currentInstanceCount < MAX_INSTANCES_PER_MACHINE → st.quotas userId = none →
        (executeFunction st functionId userId code inputData outcome removeFails).2.1.error
          = some "User quota not initialized")
    ∧ (∀ r, st.currentInstanceCount < MAX_INSTANCES_PER_MACHINE → st.quotas userId = some r →
        r.concurrent_count ≥ MAX_CONCURRENT_EXECUTIONS →
        (executeFunction st functionId userId code inputData outcome removeFails).2.1.error
          = some "User concurrent execution limit (10) reached")
    ∧ (∀ r, st.currentInstanceCount < MAX_INSTANCES_PER_MACHINE → st.quotas userId = some r →
        r.concurrent_count < MAX_CONCURRENT_EXECUTIONS →
        r.cpu_time_used_ms ≥ MAX_CPU_TIME_MS →
        (executeFunction st functionId userId code inputData outcome removeFails).2.1.error
          = some "User CPU time quota exceeded (2 hour limit)") := by
  by_cases hM : st.currentInstanceCount ≥ MAX_INSTANCES_PER_MACHINE
  · rw [executeFunction_machine_full hM]
    exact ⟨rfl, rfl, rfl, rfl, rfl, fun _ => rfl,
           fun hc _ => absurd hM (by omega),
           fun r hc _ _ => absurd hM (by omega),
           fun r hc _ _ _ => absurd hM (by omega)⟩
  · have hM' : st.currentInstanceCount < MAX_INSTANCES_PER_MACHINE := by omega
    cases hQ : st.quotas userId with
    | none =>
      rw [executeFunction_quota_missing hM' hQ]
      exact ⟨rfl, rfl, rfl, rfl, rfl,
             fun h => absurd h hM,
             fun _ _ => rfl,
             fun r _ hr _ => Option.noConfusion hr,
             fun r _ hr _ _ => Option.noConfusion hr⟩
    | some q =>
      rcases hrej with h | h | ⟨r, hr, hrc⟩
      · exact absurd h hM
      · rw [hQ] at h; exact Option.noConfusion h
      · rw [hQ] at hr
        injection hr with hr'
        subst hr'
        by_cases hcc : q.concurrent_count ≥ MAX_CONCURRENT_EXECUTIONS
        · rw [executeFunction_concurrent_full hM' hQ hcc]
          refine ⟨rfl, rfl, rfl, rfl, rfl, fun h => absurd h hM,
                  fun _ h => Option.noConfusion h,
                  fun r _ _ _ => rfl, ?_⟩
          intro r _ hr2 hlt _
          injection hr2 with e
          subst e
          exact absurd hcc (by omega)
        · have hcpu : q.cpu_time_used_ms ≥ MAX_CPU_TIME_MS := by
            rcases hrc with h | h
            · exact absurd h hcc
            · exact h
          rw [executeFunction_cpu_full hM' hQ (by omega) hcpu]
          refine ⟨rfl, rfl, rfl, rfl, rfl, fun h => absurd h hM,
                  fun _ h => Option.noConfusion h, ?_,
                  fun r _ _ _ _ => rfl⟩
          intro r _ hr2 hge
          injection hr2 with e
          subst e
          exact absurd hge hcc

/-- Claim C3, witness. The theorem applied at a machine-full state. -/
theorem C3_admission_reject_witness :
    machineFullState.currentInstanceCount ≥ MAX_INSTANCES_PER_MACHINE
    ∧ (executeFunction machineFullState "f" "u" "c" Json.null (.completed true "" "" 0) false).2.1.status = "error"
    ∧ (executeFunction machineFullState "f" "u" "c" Json.null (.completed true "" "" 0) false).2.1.executionTimeMs = 0
    ∧ (executeFunction machineFullState "f" "u" "c" Json.null (.completed true "" "" 0) false).2.1.error
        = some "Machine at capacity: maximum 50 concurrent instances reached" :=
  have h : machineFullState.currentInstanceCount ≥ MAX_INSTANCES_PER_MACHINE := by decide
  have hc := C3_admission_reject_shortcircuit machineFullState "f" "u" "c" Json.null
    (.completed true "" "" 0) false (Or.inl h)
  ⟨h, hc.1, hc.2.1, hc.2.2.2.2.2.1 h⟩

/-- Claim C1. The claim that after every admitted invocation both the
machine instance counter and the caller's `concurrent_count` return to
their pre-invocation values fails on the code: admission writes the
row with `concurrent_count = snapshot + 1`, but settlement overwrites
it with `snapshot - 1`, a net decrement of one below the
pre-invocation value (the double decrement the design notes flag).
Concretely, with `concurrent_count = 3` before an admitted, cleanly
completing invocation, the machine counter does return to its old
value, but the stored `concurrent_count` ends at 2, not 3. -/
theorem C1_concurrent_count_not_restored :
    c1Run.1.currentInstanceCount = (singleUserState 0 3).currentInstanceCount
    ∧ ((singleUserState 0 3).quotas "u1").map QuotaRow.concurrent_count = some 3
    ∧ (c1Run.1.quotas "u1").map QuotaRow.concurrent_count = some 2
    ∧ (c1Run.1.quotas "u1").map QuotaRow.concurrent_count ≠
        ((singleUserState 0 3).quotas "u1").map QuotaRow.concurrent_count := by
  decide

/-- Claim C2. The claim that the machine instance counter never exceeds
`MAX_MACHINE_INSTANCES` and that, with the counter at 49, any further
concurrent admission is rejected, fails on the code: the capacity
check and the increment are separated by the `await getQuota`
suspension, so two interleaved invocations entering at counter 49 both
pass the check before either increments.  Along the concrete schedule
`raceSched` the counter reaches 51 and both invocations are past
admission (neither was rejected). -/
theorem C2_interleaved_admissions_exceed_machine_cap :
    raceFinal.1.count = 51
    ∧ MAX_INSTANCES_PER_MACHINE = 50
    ∧ ¬ raceFinal.1.count ≤ MAX_INSTANCES_PER_MACHINE
    ∧ raceFinal.2[0]? = some ⟨"ua", 100, .pendingWrite ⟨0, 0, 0⟩⟩
    ∧ raceFinal.2[1]? = some ⟨"ub", 100, .pendingWrite ⟨0, 0, 0⟩⟩ := by
  decide

/-- Claim C5. On deadline expiry the code does return the stable message
`"Execution timeout: exceeded 15 second limit"`, but the claim fails
in its other two parts: the timeout rejection propagates to the
catch-all, which reports `executionTimeMs = 0` (not a value in
[15000, 15500]), and no kill signal is ever sent to the sandbox child
(the timeout merely rejects the race; the child is orphaned). -/
theorem C5_timeout_zero_elapsed_and_no_kill :
    c5Run.2.1 = ⟨"error", none, some "Execution timeout: exceeded 15 second limit", 0⟩
    ∧ c5Run.2.2.sandboxKilled = false
    ∧ ¬ (15000 ≤ c5Run.2.1.executionTimeMs ∧ c5Run.2.1.executionTimeMs ≤ 15500) := by
  decide

/-- Claim C4, counterexample. When the post-admission CPU check trips,
the over-budget elapsed time is NOT billed: the early return skips the
settlement `updateQuota`, so a user at `MAX_USER_CPU_MS - 1000` whose
sandbox ran 2000 ms keeps `cpu_time_used_ms = MAX_USER_CPU_MS - 1000`,
not the claimed `MAX_USER_CPU_MS + 1000`. -/
theorem C4_overbudget_not_billed_counterexample :
    c4Run.2.1.status = "error"
    ∧ c4Run.2.1.error = some "Execution would exceed CPU time quota"
    ∧ (c4Run.1.quotas "u1").map QuotaRow.cpu_time_used_ms = some (MAX_CPU_TIME_MS - 1000)
    ∧ (c4Run.1.quotas "u1").map QuotaRow.cpu_time_used_ms ≠ some (MAX_CPU_TIME_MS + 1000) := by
  decide

/-- Claim C4, amended. When the post-admission check finds
`quota.cpu_time_used_ms + elapsed > MAX_USER_CPU_MS`, `executeFunction`
returns `status = "error"` with the CPU-quota message and the elapsed
time as `executionTimeMs`, but the over-budget time is NOT billed: the
early return skips settlement, so the quota row keeps its admission
snapshot (`cpu_time_used_ms` unchanged, `concurrent_count` still at
snapshot + 1) and no log row is written; the machine counter is
restored. -/
theorem C4_overbudget_error_and_unbilled (st : EngineState)
    (functionId userId code : String) (inputData : Json)
    (success : Bool) (so se : String) (elapsed : Int) (removeFails : Bool) (q : QuotaRow)
    (h1 : st.currentInstanceCount < MAX_INSTANCES_PER_MACHINE)
    (h2 : st.quotas userId = some q)
    (h3 : q.concurrent_count < MAX_CONCURRENT_EXECUTIONS)
    (h4 : q.cpu_time_used_ms < MAX_CPU_TIME_MS)
    (h5 : q.cpu_time_used_ms + elapsed > MAX_CPU_TIME_MS) :
    (executeFunction st functionId userId code inputData (.completed success so se elapsed) removeFails).2.1
      = ⟨"error", none, some "Execution would exceed CPU time quota", elapsed⟩
    ∧ (executeFunction st functionId userId code inputData (.completed success so se elapsed) removeFails).1.quotas userId
      = some ⟨q.cpu_time_used_ms, q.concurrent_count + 1, q.last_reset_at⟩
    ∧ (executeFunction st functionId userId code inputData (.completed success so se elapsed) removeFails).2.2.logWritten = false
    ∧ (executeFunction st functionId userId code inputData (.completed success so se elapsed) removeFails).1.currentInstanceCount
      = st.currentInstanceCount := by
  rw [executeFunction_overbudget_eq h1 h2 h3 h4 h5]
  refine ⟨rfl, ?_, rfl, ?_⟩
  · show updateQuota st.quotas userId 0 (q.concurrent_count + 1) userId
      = some ⟨q.cpu_time_used_ms, q.concurrent_count + 1, q.last_reset_at⟩
    simp [updateQuota, h2]
  · show st.currentInstanceCount + 1 - 1 = st.currentInstanceCount
    omega

/-- Claim C4, amended, witness. The theorem applied to the spec's
scenario: `cpu_time_used_ms = MAX_USER_CPU_MS - 1000` and a 2000 ms
completion; the stored budget stays at `MAX_USER_CPU_MS - 1000`. -/
theorem C4_overbudget_amended_witness :
    (singleUserState (MAX_CPU_TIME_MS - 1000) 0).quotas "u1" = some ⟨MAX_CPU_TIME_MS - 1000, 0, 0⟩
    ∧ c4Run.2.1 = ⟨"error", none, some "Execution would exceed CPU time quota", 2000⟩
    ∧ c4Run.1.quotas "u1" = some ⟨MAX_CPU_TIME_MS - 1000, 1, 0⟩ :=
  have h := C4_overbudget_error_and_unbilled (singleUserState (MAX_CPU_TIME_MS - 1000) 0)
    "f1" "u1" "x" Json.null true "done" "" 2000 false ⟨MAX_CPU_TIME_MS - 1000, 0, 0⟩
    (by decide) (by decide) (by decide) (by decide) (by decide)
  ⟨by decide, h.1, h.2.1⟩

/-- Claim C6, amended. Every result of `executeFunction` satisfies: a
`"success"` status has non-null output, and an `"error"` status has
null output and non-null error.  (The original claim's remaining
conjunct — that a success result has a null error — fails when the
child exits successfully with non-empty stderr; see the
counterexample.) -/
theorem C6_result_shape_amended (st : EngineState)
    (functionId userId code : String) (inputData : Json)
    (outcome : SandboxOutcome) (removeFails : Bool) :
    ((executeFunction st functionId userId code inputData outcome removeFails).2.1.status = "success" →
      (executeFunction st functionId userId code inputData outcome removeFails).2.1.output ≠ none)
    ∧ ((executeFunction st functionId userId code inputData outcome removeFails).2.1.status = "error" →
      (executeFunction st functionId userId code inputData outcome removeFails).2.1.output = none
      ∧ (executeFunction st functionId userId code inputData outcome removeFails).2.1.error ≠ none) := by
  by_cases hM : st.currentInstanceCount ≥ MAX_INSTANCES_PER_MACHINE
  · rw [executeFunction_machine_full hM]
    exact ⟨fun h => by simp at h, fun _ => ⟨rfl, by simp⟩⟩
  · have hM' : st.currentInstanceCount < MAX_INSTANCES_PER_MACHINE := by omega
    cases hQ : st.quotas userId with
    | none =>
      rw [executeFunction_quota_missing hM' hQ]
      exact ⟨fun h => by simp at h, fun _ => ⟨rfl, by simp⟩⟩
    | some q =>
      by_cases hcc : q.concurrent_count ≥ MAX_CONCURRENT_EXECUTIONS
      · rw [executeFunction_concurrent_full hM' hQ hcc]
        exact ⟨fun h => by simp at h, fun _ => ⟨rfl, by simp⟩⟩
      · have hcc' : q.concurrent_count < MAX_CONCURRENT_EXECUTIONS := by omega
        by_cases hcpu : q.cpu_time_used_ms ≥ MAX_CPU_TIME_MS
        · rw [executeFunction_cpu_full hM' hQ hcc' hcpu]
          exact ⟨fun h => by simp at h, fun _ => ⟨rfl, by simp⟩⟩
        · have hcpu' : q.cpu_time_used_ms < MAX_CPU_TIME_MS := by omega
          cases outcome with
          | timedOut =>
            rw [executeFunction_timeout_eq hM' hQ hcc' hcpu']
            exact ⟨fun h => by simp at h, fun _ => ⟨rfl, by simp⟩⟩
          | spawnFailed m =>
            rw [executeFunction_spawnfailed_eq hM' hQ hcc' hcpu']
            exact ⟨fun h => by simp at h, fun _ => ⟨rfl, by simp⟩⟩
          | completed s so se e =>
            by_cases h5 : q.cpu_time_used_ms + e > MAX_CPU_TIME_MS
            · rw [executeFunction_overbudget_eq hM' hQ hcc' hcpu' h5]
              exact ⟨fun h => by simp at h, fun _ => ⟨rfl, by simp⟩⟩
            · have h5' : q.cpu_time_used_ms + e ≤ MAX_CPU_TIME_MS := by omega
              rw [executeFunction_settled_eq hM' hQ hcc' hcpu' h5']
              cases s with
              | false =>
                exact ⟨fun h => by simp at h, fun _ => ⟨by simp, by simp⟩⟩
              | true =>
                exact ⟨fun _ => by simp, fun h => by simp at h⟩

/-- Claim C6, amended, witness. The theorem applied to an admitted
invocation whose child failed. -/
theorem C6_result_shape_amended_witness :
    (executeFunction (singleUserState 0 0) "f1" "u1" "x" Json.null (.completed false "" "boom" 10) false).2.1.status = "error"
    ∧ (executeFunction (singleUserState 0 0) "f1" "u1" "x" Json.null (.completed false "" "boom" 10) false).2.1.output = none
    ∧ (executeFunction (singleUserState 0 0) "f1" "u1" "x" Json.null (.completed false "" "boom" 10) false).2.1.error ≠ none :=
  have h := C6_result_shape_amended (singleUserState 0 0) "f1" "u1" "x" Json.null
    (.completed false "" "boom" 10) false
  have h2 := h.2 (by decide)
  ⟨by decide, h2.1, h2.2⟩

/-- Claim C7. For every admitted invocation (whatever the sandbox
outcome), the materialized ephemeral program is exactly the
declaration binding `input` to the serialized input value followed
verbatim by the user's source (inside the wrapper template's
whitespace), and the scratch-file removal is invoked on every exit
path, with a removal failure changing neither the resulting state nor
the returned result (the cleanup error is swallowed). -/
theorem C7_materialize_and_dispose (st : EngineState)
    (functionId userId code : String) (inputData : Json)
    (outcome : SandboxOutcome) (removeFails : Bool) (q : QuotaRow)
    (h1 : st.currentInstanceCount < MAX_INSTANCES_PER_MACHINE)
    (h2 : st.quotas userId = some q)
    (h3 : q.concurrent_count < MAX_CONCURRENT_EXECUTIONS)
    (h4 : q.cpu_time_used_ms < MAX_CPU_TIME_MS) :
    (executeFunction st functionId userId code inputData outcome removeFails).2.2.programText
      = some ("\nconst input = " ++ jsonStringify inputData ++ ";\n" ++ code ++ "\n      ")
    ∧ (executeFunction st functionId userId code inputData outcome removeFails).2.2.tempRemoveInvoked = true
    ∧ (executeFunction st functionId userId code inputData outcome true).1
        = (executeFunction st functionId userId code inputData outcome false).1
    ∧ (executeFunction st functionId userId code inputData outcome true).2.1
        = (executeFunction st functionId userId code inputData outcome false).2.1 := by
  cases outcome with
  | timedOut =>
    simp [executeFunction_timeout_eq h1 h2 h3 h4, wrappedCode]
  | spawnFailed m =>
    simp [executeFunction_spawnfailed_eq h1 h2 h3 h4, wrappedCode]
  | completed s so se e =>
    by_cases h5 : q.cpu_time_used_ms + e > MAX_CPU_TIME_MS
    · simp [executeFunction_overbudget_eq h1 h2 h3 h4 h5, wrappedCode]
    · have h5' : q.cpu_time_used_ms + e ≤ MAX_CPU_TIME_MS := by omega
      simp [executeFunction_settled_eq h1 h2 h3 h4 h5', wrappedCode]

/-- Claim C7, witness. The theorem applied to a concrete admitted
invocation with a non-trivial input value. -/
theorem C7_materialize_and_dispose_witness :
    (singleUserState 0 0).quotas "u1" = some ⟨0, 0, 0⟩
    ∧ (executeFunction (singleUserState 0 0) "f1" "u1" "CODE" (Json.num 7) (.completed true "" "" 5) false).2.2.programText
        = some ("\nconst input = " ++ jsonStringify (Json.num 7) ++ ";\n" ++ "CODE" ++ "\n      ")
    ∧ (executeFunction (singleUserState 0 0) "f1" "u1" "CODE" (Json.num 7) (.completed true "" "" 5) false).2.2.tempRemoveInvoked = true :=
  have h := C7_materialize_and_dispose (singleUserState 0 0) "f1" "u1" "CODE" (Json.num 7)
    (.completed true "" "" 5) false ⟨0, 0, 0⟩ (by decide) (by decide) (by decide) (by decide)
  ⟨by decide, h.1, h.2.1⟩

/-- Claim C6, counterexample. A child that exits successfully while
having written to stderr yields `status = "success"` with a non-null
`error` field (the code computes `error := !success || stderr ? stderr
: null`), contradicting the claim that a success result has a null
error. -/
theorem C6_success_with_stderr_counterexample :
    c6Run.2.1.status = "success"
    ∧ c6Run.2.1.error = some "warn"
    ∧ c6Run.2.1.error ≠ none := by
  decide

/-- The envelope decision on a parsed stdout value, characterized:
envelope mode exactly for a truthy value with a numeric `status`
field. -/
theorem captureOfJson_isEnvelope (v : Json) (r : ExecResult) :
    ((captureOfJson v r).isEnvelope = true) ↔
      (jsTruthy v = true ∧ ∃ n, jsGetField v "status" = some (.num n)) := by
  unfold captureOfJson
  by_cases ht : jsTruthy v
  · rw [if_pos ht]
    cases hs : jsGetField v "status" with
    | none => simp [CaptureResult.isEnvelope, rawOf, ht]
    | some j =>
      cases j with
      | num n => simp [CaptureResult.isEnvelope, ht]
      | null => simp [CaptureResult.isEnvelope, rawOf, ht]
      | bool b => simp [CaptureResult.isEnvelope, rawOf, ht]
      | str s => simp [CaptureResult.isEnvelope, rawOf, ht]
      | arr xs => simp [CaptureResult.isEnvelope, rawOf, ht]
      | obj fs => simp [CaptureResult.isEnvelope, rawOf, ht]
  · rw [if_neg ht]
    simp [CaptureResult.isEnvelope, rawOf, ht]

/-- Claim C8, counterexample. The capture step checks only that the
parsed `status` field is a number — not that it is in [100, 599] (nor
any shape of `headers`/`body`): stdout `{"status":7000}` on a
successful result is emitted as an envelope with status 7000. -/
theorem C8_envelope_no_range_check_counterexample :
    captureRun statusJunkResult = CaptureResult.envelope 7000 [] Json.null
    ∧ ¬ (100 ≤ (7000 : Int) ∧ (7000 : Int) ≤ 599) :=
  ⟨rfl, by decide⟩

/-- Claim C8, amended. On a successful result with non-empty stdout,
the capture step emits an `HttpEnvelope` exactly when stdout parses as
a truthy JSON value whose `status` field is a number — no
integer/range check on [100, 599] and no shape check of
`headers`/`body` is performed; stdout that does not parse is returned
in raw-output mode (whatever the result's status), as is parsed stdout
that is not truthy or lacks a numeric `status`; when the `body` field
is a string, exactly one further parse is attempted, keeping the
string on failure; and the spec's concrete example yields an envelope
whose body parses to `{x:1}`. -/
theorem C8_capture_amended :
    (∀ r : ExecResult, ∀ out, r.output = some out → r.status = "success" → out ≠ "" →
      (((captureRun r).isEnvelope = true) ↔
        (∃ v, parseJson out = some v ∧ jsTruthy v = true
          ∧ ∃ n, jsGetField v "status" = some (.num n))))
    ∧ (∀ r : ExecResult, ∀ out, r.output = some out → parseJson out = none →
        captureRun r = rawOf r)
    ∧ (∀ r : ExecResult, ∀ out v, r.output = some out → r.status = "success" → out ≠ "" →
        parseJson out = some v →
        ¬ (jsTruthy v = true ∧ ∃ n, jsGetField v "status" = some (.num n)) →
        captureRun r = rawOf r)
    ∧ (∀ v n (r : ExecResult) s, jsTruthy v = true →
        jsGetField v "status" = some (.num n) →
        jsGetField v "body" = some (.str s) →
        captureOfJson v r = .envelope n (envHeaders v)
          (match parseJson s with
           | some b => b
           | none => .str s))
    ∧ captureRun exampleEnvelopeResult
        = .envelope 200 [("Content-Type", Json.str "application/json")]
            (Json.obj [("x", Json.num 1)]) := by
  have hred : ∀ (r : ExecResult) (out : String), r.output = some out →
      captureRun r = (if r.status = "success" ∧ out ≠ "" then
          (match parseJson out with
           | some w => captureOfJson w r
           | none => rawOf r)
        else rawOf r) := by
    intro r out hout
    unfold captureRun
    rw [hout]
  refine ⟨?_, ?_, ?_, ?_, rfl⟩
  · intro r out hout hsucc hne
    rw [hred r out hout, if_pos ⟨hsucc, hne⟩]
    cases hp : parseJson out with
    | none => simp [rawOf, CaptureResult.isEnvelope]
    | some v =>
      have hv : (match some v with
          | some w => captureOfJson w r
          | none => rawOf r) = captureOfJson v r := rfl
      rw [hv, captureOfJson_isEnvelope v r]
      constructor
      · intro h
        exact ⟨v, rfl, h.1, h.2⟩
      · intro h
        rcases h with ⟨w, hw, hwt, hwn⟩
        cases Option.some.inj hw
        exact ⟨hwt, hwn⟩
  · intro r out hout hp
    rw [hred r out hout]
    by_cases hc : r.status = "success" ∧ out ≠ ""
    · rw [if_pos hc, hp]
    · rw [if_neg hc]
  · intro r out v hout hsucc hne hp hnot
    rw [hred r out hout, if_pos ⟨hsucc, hne⟩, hp]
    show captureOfJson v r = rawOf r
    unfold captureOfJson
    by_cases ht : jsTruthy v
    · rw [if_pos ht]
      cases hs : jsGetField v "status" with
      | none => rfl
      | some j =>
        cases j with
        | num n => exact absurd ⟨ht, ⟨n, hs⟩⟩ hnot
        | null => rfl
        | bool b => rfl
        | str s => rfl
        | arr xs => rfl
        | obj fs => rfl
    · rw [if_neg ht]
  · intro v n r s ht hs hb
    unfold captureOfJson
    rw [if_pos ht, hs]
    unfold envBody
    rw [hb]

/-- Claim C8, amended, witness. The envelope characterization applied to
the out-of-range concrete stdout. -/
theorem C8_capture_amended_witness :
    statusJunkResult.output = some "\x7b\"status\":7000\x7d"
    ∧ statusJunkResult.status = "success"
    ∧ (captureRun statusJunkResult).isEnvelope = true :=
  have h := C8_capture_amended.1 statusJunkResult "\x7b\"status\":7000\x7d"
    rfl rfl (by decide)
  ⟨rfl, rfl, h.mpr ⟨Json.obj [("status", Json.num 7000)], rfl, rfl, 7000, rfl⟩⟩

/-- Claim C9, counterexample. `sanitizeOutput` truncates at 1,000,000
characters, not at 1 MiB: a 1,000,001-character payload — well below
1,048,576 — is not returned unchanged. -/
theorem C9_truncation_counterexample :
    bigOutput.length ≤ 1048576
    ∧ sanitizeOutput (some bigOutput) ≠ some bigOutput := by
  have hdata : bigOutput.data = List.replicate 1000001 'a' := rfl
  have h1 : bigOutput.length = 1000001 := by
    show bigOutput.data.length = 1000001
    rw [hdata, List.length_replicate]
  constructor
  · rw [h1]
    omega
  · have hgt : bigOutput.length > 1000000 := by omega
    have h2 : sanitizeOutput (some bigOutput)
        = some (String.mk (bigOutput.data.take 1000000) ++ TRUNCATION_MARKER) := by
      simp only [sanitizeOutput]
      rw [if_pos hgt]
    rw [h2]
    intro hEq
    have h3 := Option.some.inj hEq
    have h4 := congrArg String.length h3
    rw [String.length_append] at h4
    have h5 : (String.mk (bigOutput.data.take 1000000)).length = 1000000 := by
      show (bigOutput.data.take 1000000).length = 1000000
      rw [hdata, List.length_take, List.length_replicate]
      omega
    have h6 : TRUNCATION_MARKER.length = 23 := by decide
    rw [h5, h6, h1] at h4
    omega

/-- Claim C9, amended. `sanitizeOutput` leaves `null` and payloads of at
most 1,000,000 characters unchanged; a payload longer than 1,000,000
characters is cut to its first 1,000,000 characters with the
truncation marker appended, for a total of 1,000,023 characters. -/
theorem C9_truncation_amended (s : String) :
    (s.length ≤ 1000000 → sanitizeOutput (some s) = some s)
    ∧ (s.length > 1000000 →
        sanitizeOutput (some s)
          = some (String.mk (s.data.take 1000000) ++ TRUNCATION_MARKER)
        ∧ (sanitizeOutput (some s)).map String.length = some 1000023)
    ∧ sanitizeOutput none = none := by
  refine ⟨?_, ?_, rfl⟩
  · intro h
    simp only [sanitizeOutput]
    rw [if_neg (by omega : ¬ s.length > 1000000)]
  · intro h
    have h2 : sanitizeOutput (some s)
        = some (String.mk (s.data.take 1000000) ++ TRUNCATION_MARKER) := by
      simp only [sanitizeOutput]
      rw [if_pos h]
    refine ⟨h2, ?_⟩
    rw [h2]
    have hd : s.data.length > 1000000 := h
    have h5 : (String.mk (s.data.take 1000000)).length = 1000000 := by
      show (s.data.take 1000000).length = 1000000
      rw [List.length_take]
      omega
    have h6 : TRUNCATION_MARKER.length = 23 := by decide
    simp [String.length_append, h5, h6]

/-- Claim C9, amended, witness. A short payload is returned unchanged. -/
theorem C9_truncation_amended_witness :
    ("hi" : String).length ≤ 1000000 ∧ sanitizeOutput (some "hi") = some "hi" :=
  ⟨by decide, (C9_truncation_amended "hi").1 (by decide)⟩

/-- Claim C10. `updateQuota` on an existing row adds the CPU delta to
`cpu_time_used_ms`, overwrites `concurrent_count` with the
caller-supplied absolute value, leaves `last_reset_at` unchanged, and
leaves every other user's row unchanged. -/
theorem C10_updateQuota_adds_cpu_overwrites_concurrent
    (qs : String → Option QuotaRow) (userId : String)
    (cpuTimeUsedMs concurrentCount : Int) (q : QuotaRow)
    (h : qs userId = some q) :
    updateQuota qs userId cpuTimeUsedMs concurrentCount userId
      = some ⟨q.cpu_time_used_ms + cpuTimeUsedMs, concurrentCount, q.last_reset_at⟩
    ∧ ∀ u, u ≠ userId → updateQuota qs userId cpuTimeUsedMs concurrentCount u = qs u := by
  constructor
  · simp [updateQuota, h]
  · intro u hu
    simp [updateQuota, hu]

/-- Claim C10, witness. The theorem applied to a concrete one-row quota
table. -/
theorem C10_updateQuota_witness :
    witQs "u1" = some ⟨5, 2, 7⟩
    ∧ (updateQuota witQs "u1" 100 9 "u1" = some ⟨105, 9, 7⟩
       ∧ ∀ u, u ≠ "u1" → updateQuota witQs "u1" 100 9 u = witQs u) :=
  ⟨rfl, C10_updateQuota_adds_cpu_overwrites_concurrent witQs "u1" 100 9 ⟨5, 2, 7⟩ rfl⟩

end Novrun
